import Mathlib

/-!
Verification development for the CoinRisqLab market-index and risk-metrics
pipeline.  The JavaScript batch commands are shallowly embedded as pure Lean
functions: database rows become structures, SQL result sets become lists,
JavaScript numbers become exact rationals (`ℚ`), dates become natural-number
day indices (days since an arbitrary epoch, so `today - 1` is yesterday), and
fallible computations return `Except`/`Option`.
-/

/-! ## String helpers

`exclusions.js` matches category names by case-insensitive substring
(`c.toLowerCase().includes(needle)`).  `leadMatch needle hay` is
`hay.startsWith(needle)` on character lists and `hasSub` scans every suffix,
which is exactly what `String.prototype.includes` decides. -/

def leadMatch : List Char → List Char → Bool
  | [], _ => true
  | _ :: _, [] => false
  | a :: as, b :: bs => a == b && leadMatch as bs

def hasSub (needle : List Char) : List Char → Bool
  | [] => needle.isEmpty
  | b :: bs => leadMatch needle (b :: bs) || hasSub needle bs

/-- `containsTag needle hay` embeds `hay.includes(needle)` for strings. -/
def containsTag (needle hay : String) : Bool :=
  hasSub needle.data hay.data

/-- ASCII lowercase of one character, embedding the effect of
`String.prototype.toLowerCase` on the ASCII category names the filter
compares (the needles are all ASCII). -/
def lowerChar (c : Char) : Char :=
  if 65 ≤ c.toNat ∧ c.toNat ≤ 90 then Char.ofNat (c.toNat + 32) else c

/-- `s.toLowerCase()` character by character. -/
def lowerString (s : String) : String :=
  ⟨s.data.map lowerChar⟩

/-! ## Exclusion filter (`utils/exclusions.js`)

`parseCategories` turns the raw categories column into a lowercase list; the
JSON-parsing fallback paths (null / malformed input) all return `[]`, which we
model with `Option (List String)` where `none` stands for a null or
unparseable column. -/

def parseCategories (categories : Option (List String)) : List String :=
  (categories.getD []).map lowerString

def isStablecoin (categories : Option (List String)) : Bool :=
  (parseCategories categories).any (fun c => containsTag "stablecoin" c)

def isWrapped (categories : Option (List String)) : Bool :=
  (parseCategories categories).any (fun c => containsTag "wrapped" c)

def isStaked (categories : Option (List String)) : Bool :=
  (parseCategories categories).any
    (fun c => containsTag "staking" c || containsTag "staked" c)

/-- One row of the per-timestamp market-data query feeding the index engine
(`getMarketDataForTimestamp` / `getOldestMarketData`): price, circulating
supply, 24h volume and the joined metadata categories. -/
structure MarketRow where
  crypto_id : Nat
  price_usd : ℚ
  circulating_supply : ℚ
  volume_24h_usd : ℚ
  categories : Option (List String)
  deriving DecidableEq, Repr

/-- `isExcluded` from `utils/exclusions.js`: stablecoin, wrapped or
staked/staking category tags exclude an asset. -/
def isExcluded (crypto : MarketRow) : Bool :=
  isStablecoin crypto.categories || isWrapped crypto.categories ||
    isStaked crypto.categories

/-! ## Index engine (`commands/calculateCoinRisqLab80.js`) -/

def BASE_LEVEL : ℚ := 100

def MAX_CONSTITUENTS : Nat := 80

def MIN_VOLUME_24H : ℚ := 200000

/-- `market_cap_usd` as computed by the SQL projection and by the reduce
callbacks: `price_usd * circulating_supply`. -/
def marketCap (r : MarketRow) : ℚ :=
  r.price_usd * r.circulating_supply

/-- `selectConstituents`: drop excluded assets and assets with 24h volume
below `MIN_VOLUME_24H`, then take the top `MAX_CONSTITUENTS`.  The input list
arrives sorted by market cap descending (SQL `ORDER BY ... DESC`). -/
def selectConstituents (marketData : List MarketRow) : List MarketRow :=
  (marketData.filter
    (fun c => !(isExcluded c) && !(c.volume_24h_usd < MIN_VOLUME_24H))).take
    MAX_CONSTITUENTS

/-- The fields of `index_config` that the calculation reads. -/
structure IndexConfig where
  divisor : ℚ
  base_date : Nat
  deriving DecidableEq, Repr

/-- Divisor initialization inside `getOrCreateIndexConfig`: constituents are
selected from the oldest snapshot and the divisor is their market-cap sum
divided by `BASE_LEVEL`; no valid constituent is a fatal error. -/
def initDivisor (oldestMarketData : List MarketRow) : Except String ℚ :=
  let constituents := selectConstituents oldestMarketData
  if constituents.isEmpty then
    .error "Cannot initialize index: no valid constituents found."
  else
    .ok ((constituents.map marketCap).sum / BASE_LEVEL)

/-- `getOrCreateIndexConfig`: an existing active config whose persisted
divisor differs from the sentinel `1.0` is returned as-is; otherwise the
divisor is (re)initialized from the oldest market snapshot and anchored at
that snapshot's date. -/
def getOrCreateIndexConfig (existing : Option IndexConfig)
    (oldestMarketData : List MarketRow) (oldestDate : Nat) :
    Except String IndexConfig :=
  match existing with
  | some cfg =>
    if cfg.divisor ≠ 1 then
      .ok cfg
    else
      (initDivisor oldestMarketData).map
        (fun d => { divisor := d, base_date := oldestDate })
  | none =>
    (initDivisor oldestMarketData).map
      (fun d => { divisor := d, base_date := oldestDate })

/-- The `index_history` row produced for one timestamp, together with the
constituent rows stored by `storeConstituents`. -/
structure IndexRow where
  totalMarketCap : ℚ
  indexLevel : ℚ
  numConstituents : Nat
  constituents : List MarketRow
  deriving DecidableEq, Repr

/-- Constituent weights stored by `storeConstituents`:
`(marketCap / totalMarketCap) * 100` for each selected constituent. -/
def constituentWeights (constituents : List MarketRow) (totalMarketCap : ℚ) :
    List ℚ :=
  constituents.map (fun c => marketCap c / totalMarketCap * 100)

/-- `calculateIndexForTimestamp`: empty market data and an incomplete
constituent set (< `MAX_CONSTITUENTS` after filtering) are thrown errors; the
index level is the constituent market-cap sum divided by the divisor. -/
def calculateIndexForTimestamp (cfg : IndexConfig)
    (marketData : List MarketRow) : Except String IndexRow :=
  if marketData.isEmpty then
    .error "No market data found for timestamp"
  else
    let constituents := selectConstituents marketData
    if constituents.length < MAX_CONSTITUENTS then
      .error "Not enough constituents for timestamp"
    else
      let totalMarketCap := (constituents.map marketCap).sum
      .ok { totalMarketCap := totalMarketCap
            indexLevel := totalMarketCap / cfg.divisor
            numConstituents := constituents.length
            constituents := constituents }

/-- The per-timestamp loop of `calculateCoinRisqLab80`: each missing
timestamp's market data is processed in chronological order, a thrown error is
caught and counted, and the loop continues.  Returns the inserted
`index_history` rows (in insertion order) with the success and error counts. -/
def runIndexBackfill (cfg : IndexConfig) :
    List (List MarketRow) → List IndexRow × Nat × Nat
  | [] => ([], 0, 0)
  | md :: rest =>
    let r := calculateIndexForTimestamp cfg md
    let acc := runIndexBackfill cfg rest
    match r with
    | .ok row => (row :: acc.1, acc.2.1 + 1, acc.2.2)
    | .error _ => (acc.1, acc.2.1, acc.2.2 + 1)

/-! ## Daily/hourly backfill (`fetchOHLC.js`, the two-pass variant)

Dates are naturals (days since an epoch); `today` is the run's `CURDATE()` and
`today - 1` is yesterday.  A crypto's `ohlc` rows are daily midnight rows (the
command only ever inserts `YYYY-MM-DD 00:00:00` timestamps), so the set of
their dates suffices; `market_data` rows are kept one list entry per row,
tagged by the row's `price_date` day (hourly rows repeat a day). -/

def RECOVERY_WINDOW_DAYS : Nat := 730

def HOURLY_BACKFILL_DAYS : Nat := 90

def HOURLY_ENTRY_THRESHOLD : Nat := 500

def DAYS_BUFFER : Nat := 2

/-- The stored time series of one cryptocurrency, as the backfill queries see
it. -/
structure CryptoSeries where
  id : Nat
  hasCoingeckoId : Bool
  ohlcDates : List Nat
  mdDays : List Nat
  deriving DecidableEq, Repr

/-- The `NOT EXISTS ... OR NOT EXISTS ...` condition of the cheap pass:
yesterday's slot is absent from `ohlc` or from `market_data`. -/
def missesYesterday (today : Nat) (c : CryptoSeries) : Bool :=
  !(decide ((today - 1) ∈ c.ohlcDates)) || !(decide ((today - 1) ∈ c.mdDays))

/-- `detectCryptosWithDailyGaps`: all cryptos with a known external id whose
yesterday slot is missing in either watched table. -/
def detectCryptosWithDailyGaps (today : Nat) (db : List CryptoSeries) :
    List CryptoSeries :=
  db.filter (fun c => c.hasCoingeckoId && missesYesterday today c)

/-- The `allDates` loop of `detectDetailedDailyGaps`: every expected date from
yesterday back through the recovery window. -/
def allDatesList (today : Nat) : List Nat :=
  (List.range RECOVERY_WINDOW_DAYS).map (fun i => today - (i + 1))

/-- Expected dates missing from the crypto's `ohlc` table. -/
def ohlcMissingDates (today : Nat) (c : CryptoSeries) : List Nat :=
  (allDatesList today).filter (fun d => !(decide (d ∈ c.ohlcDates)))

/-- Expected dates missing from the crypto's `market_data` table. -/
def mdMissingDates (today : Nat) (c : CryptoSeries) : List Nat :=
  (allDatesList today).filter (fun d => !(decide (d ∈ c.mdDays)))

/-- The `oldestGap` scan: the chronologically smallest missing date across
both tables (date strings compare lexicographically, i.e. chronologically). -/
def oldestMissingDate (today : Nat) (c : CryptoSeries) : Option Nat :=
  (ohlcMissingDates today c ++ mdMissingDates today c).min?

/-- The look-back computation of `detectDetailedDailyGaps`: without a gap the
default is 3; otherwise `min(diffDays + DAYS_BUFFER, RECOVERY_WINDOW_DAYS)`
where `diffDays` is the whole-day distance from the oldest gap to today (both
are midnight-aligned, so `Math.ceil` is exact). -/
def daysNeeded (today : Nat) (c : CryptoSeries) : Nat :=
  match oldestMissingDate today c with
  | none => 3
  | some g => min (today - g + DAYS_BUFFER) RECOVERY_WINDOW_DAYS

/-- `processDailyBackfill` calls the external API (one credit) exactly when
the detailed check still finds a missing date in either table. -/
def dailyGapApiCalled (today : Nat) (c : CryptoSeries) : Bool :=
  !((ohlcMissingDates today c).isEmpty && (mdMissingDates today c).isEmpty)

/-- External calls of the daily pass (`runDailyBackfill`): one per flagged
crypto whose detailed check confirms a gap. -/
def dailyApiCalls (today : Nat) (db : List CryptoSeries) : Nat :=
  ((detectCryptosWithDailyGaps today db).filter (dailyGapApiCalled today)).length

/-- `COUNT(md.id)` over `market_data` rows of the last
`HOURLY_BACKFILL_DAYS` days. -/
def hourlyEntryCount (today : Nat) (c : CryptoSeries) : Nat :=
  (c.mdDays.filter (fun d => today - HOURLY_BACKFILL_DAYS ≤ d)).length

/-- `detectCryptosNeedingHourlyBackfill`: cryptos with a known external id and
fewer than `HOURLY_ENTRY_THRESHOLD` recent `market_data` rows. -/
def detectCryptosNeedingHourlyBackfill (today : Nat) (db : List CryptoSeries) :
    List CryptoSeries :=
  db.filter
    (fun c => c.hasCoingeckoId &&
      decide (hourlyEntryCount today c < HOURLY_ENTRY_THRESHOLD))

/-- External calls of the hourly pass (`runHourlyBackfill`):
`processHourlyBackfill` always performs exactly one call per selected
crypto. -/
def hourlyApiCalls (today : Nat) (db : List CryptoSeries) : Nat :=
  (detectCryptosNeedingHourlyBackfill today db).length

/-- Total external calls of one `fetchDailyData` run (daily pass followed by
hourly pass). -/
def totalApiCalls (today : Nat) (db : List CryptoSeries) : Nat :=
  dailyApiCalls today db + hourlyApiCalls today db

/-! ## Moving averages (`calculateMovingAverages.js`)

The SQL feeding `calculateMAForCrypto` yields one close per distinct past
date, in ascending date order; we identify each date with its zero-based
chronological index, so the `existing` key set of already-stored rows is a
list of `(date index, window_days)` pairs.  The window constants are taken as
parameters so the statements also cover the spec's `MINIMUM_WINDOW_DAYS = 2`
example; the file's constants are `MINIMUM_WINDOW_DAYS = 7` and
`DEFAULT_WINDOW_DAYS = 90`. -/

def DEFAULT_WINDOW_DAYS : Nat := 90

def MINIMUM_WINDOW_DAYS : Nat := 7

/-- `dailyCloses.slice(i - actualWindowDays + 1, i + 1)`: the trailing
`min (i+1) maxW` closes ending at index `i`. -/
def maWindowCloses (maxW : Nat) (closes : List ℚ) (i : Nat) : List ℚ :=
  let w := min (i + 1) maxW
  (closes.drop (i + 1 - w)).take w

/-- The simple moving average at index `i`: window sum over window length. -/
def smaAt (maxW : Nat) (closes : List ℚ) (i : Nat) : ℚ :=
  (maWindowCloses maxW closes i).sum / (maWindowCloses maxW closes i).length

/-- One `crypto_moving_averages` row. -/
structure MARow where
  dateIdx : Nat
  windowDays : Nat
  movingAverage : ℚ
  numObservations : Nat
  deriving DecidableEq, Repr

/-- The `crypto_moving_averages` row the loop body inserts at index `i`. -/
def maRowAt (maxW : Nat) (closes : List ℚ) (i : Nat) : MARow :=
  { dateIdx := i, windowDays := min (i + 1) maxW,
    movingAverage := smaAt maxW closes i,
    numObservations := (maWindowCloses maxW closes i).length }

/-- `calculateMAForCrypto`: below `minW` closes nothing is computed; otherwise
the loop runs `i = minW - 1 .. closes.length - 1`, skips `(date, window)` keys
already present, and inserts the SMA over the trailing
`min (i+1) maxW` closes. -/
def calculateMAForCrypto (minW maxW : Nat) (existing : List (Nat × Nat))
    (closes : List ℚ) : List MARow :=
  if closes.length < minW then []
  else
    ((List.range closes.length).drop (minW - 1)).filterMap (fun i =>
      if (i, min (i + 1) maxW) ∈ existing then none
      else some (maRowAt maxW closes i))

/-! ## VaR/CVaR backfill (`calculateVaRStats.js`)

The loop's window slicing and the `(crypto, date, window_days)` existence
check are embedded from the source.  The statistics helpers live in
`utils/statistics.js` / `utils/riskMetrics.js`, which are not part of the
sources here; they are modelled from the spec (see the individual
definitions), which is immaterial for the idempotence claim: any deterministic
row computation gives the same result on a re-run. -/

def MINIMUM_DATA_POINTS : Nat := 7

def MAX_WINDOW_DAYS : Nat := 365

/-- `logReturns.slice(Math.max(0, i - MAX_WINDOW_DAYS + 1), i + 1)`: trailing
window of at most `MAX_WINDOW_DAYS` returns ending at index `i` (natural
subtraction realizes the `Math.max(0, ·)`). -/
def varWindowReturns (returns : List ℚ) (i : Nat) : List ℚ :=
  (returns.drop (i + 1 - MAX_WINDOW_DAYS)).take (i + 1 - (i + 1 - MAX_WINDOW_DAYS))

/-- Modelled from the spec: `mean` of `utils/statistics.js` (not under
`src/`) — the arithmetic mean. -/
def meanQ (xs : List ℚ) : ℚ :=
  xs.sum / xs.length

/-- Modelled from the spec: the sample variance (`n − 1` denominator) used by
`standardDeviation` of `utils/statistics.js` (not under `src/`). -/
def sampleVariance (xs : List ℚ) : ℚ :=
  ((xs.map (fun r => (r - meanQ xs) * (r - meanQ xs))).sum) / (xs.length - 1 : Nat)

/-- Modelled from the spec: `standardDeviation` of `utils/statistics.js` (not
under `src/`) — the square root of the sample variance; `Math.sqrt` is
modelled by the exact-rational `Rat.sqrt` (both vanish exactly at 0). -/
def stdDevQ (xs : List ℚ) : ℚ :=
  Rat.sqrt (sampleVariance xs)

/-- Modelled from the spec: `calculateVaR` of `utils/riskMetrics.js` (not
under `src/`) — historical VaR via nearest rank on the sorted empirical
distribution (the spec leaves the rank rule open). -/
def varAtLevel (confidence : Nat) (xs : List ℚ) : ℚ :=
  (xs.mergeSort (· ≤ ·)).getD ((100 - confidence) * xs.length / 100) 0

/-- Modelled from the spec: `calculateCVaR` of `utils/riskMetrics.js` (not
under `src/`) — the mean of the returns at or below the VaR threshold. -/
def cvarAtLevel (confidence : Nat) (xs : List ℚ) : ℚ :=
  meanQ (xs.filter (fun r => r ≤ varAtLevel confidence xs))

/-- One `crypto_var` row. -/
structure VarRow where
  dateIdx : Nat
  windowDays : Nat
  var95 : ℚ
  var99 : ℚ
  cvar95 : ℚ
  cvar99 : ℚ
  meanReturn : ℚ
  stdDev : ℚ
  minReturn : ℚ
  maxReturn : ℚ
  numObservations : Nat
  deriving DecidableEq, Repr

/-- The `crypto_var` row the loop body inserts at index `i`: the window
statistics of the trailing window ending there. -/
def varRowAt (logReturns : List ℚ) (i : Nat) : VarRow :=
  let w := varWindowReturns logReturns i
  { dateIdx := i, windowDays := w.length,
    var95 := varAtLevel 95 w, var99 := varAtLevel 99 w,
    cvar95 := cvarAtLevel 95 w, cvar99 := cvarAtLevel 99 w,
    meanReturn := meanQ w, stdDev := stdDevQ w,
    minReturn := w.min?.getD 0, maxReturn := w.max?.getD 0,
    numObservations := w.length }

/-- `calculateVaRForCrypto`: below `MINIMUM_DATA_POINTS` returns nothing is
computed; otherwise the loop runs `i = MINIMUM_DATA_POINTS - 1 ..`, skips
`(date, window_days)` keys already present, and inserts the window
statistics. -/
def calculateVaRForCrypto (existing : List (Nat × Nat))
    (logReturns : List ℚ) : List VarRow :=
  if logReturns.length < MINIMUM_DATA_POINTS then []
  else
    ((List.range logReturns.length).drop (MINIMUM_DATA_POINTS - 1)).filterMap
      (fun i =>
        if (i, (varWindowReturns logReturns i).length) ∈ existing then none
        else some (varRowAt logReturns i))

/-! ## Portfolio volatility (`calculatePortfolioVolatility.js`)

`calculatePortfolioVolatilityForDate` receives the selected constituents with
their chronological log-return series (`getConstituentReturns`).  The
windowing, filtering and weight logic below is embedded from the source; the
covariance-matrix and volatility numbers themselves come from
`utils/statistics.js` (not under `src/`) and no claim references them, so the
produced row keeps the fields the claims speak about (window, constituents,
truncated series, market caps, weights). -/

def PV_MAX_CONSTITUENTS : Nat := 40

def CANDIDATE_POOL_SIZE : Nat := 80

/-- A constituent with market cap and chronological log-return series, as
produced by `getConstituentReturns`. -/
structure CReturns where
  crypto_id : Nat
  marketCap : ℚ
  returns : List ℚ
  deriving DecidableEq, Repr

/-- `constituentsWithReturns`: constituents having at least one log
return. -/
def pvWithReturns (crs : List CReturns) : List CReturns :=
  crs.filter (fun c => 0 < c.returns.length)

/-- `Math.max(...constituentsWithReturns.map(c => c.returns.length))`. -/
def maxAvailableDays (crs : List CReturns) : Nat :=
  ((pvWithReturns crs).map (fun c => c.returns.length)).foldl max 0

/-- The effective window: target `DEFAULT_WINDOW_DAYS`, else the longest
available history. -/
def effectiveWindowDays (crs : List CReturns) : Nat :=
  min (maxAvailableDays crs) DEFAULT_WINDOW_DAYS

/-- `returns.slice(-eff)`: keep the last `eff` observations
(right-aligned). -/
def truncateReturns (eff : Nat) (c : CReturns) : CReturns :=
  { c with returns := c.returns.drop (c.returns.length - eff) }

/-- The constituents meeting the effective window. -/
def eligibleConstituents (crs : List CReturns) : List CReturns :=
  (pvWithReturns crs).filter
    (fun c => effectiveWindowDays crs ≤ c.returns.length)

/-- The fields of one `portfolio_volatility` row (plus its constituent rows)
that the claims reference. -/
structure PVRow where
  windowDays : Nat
  numConstituents : Nat
  totalMarketCap : ℚ
  constituents : List CReturns
  weights : List ℚ
  deriving DecidableEq, Repr

/-- `calculatePortfolioVolatilityForDate`, from the point where the
constituent return series are in hand: abort (`none`, nothing stored) when
fewer than 10 constituents have any returns, when the effective window is
below `MINIMUM_WINDOW_DAYS`, or when fewer than 10 constituents meet the
effective window; otherwise truncate every eligible series to the last
`effectiveWindowDays` observations and weight by market cap. -/
def calculatePortfolioVolatilityForDate (crs : List CReturns) : Option PVRow :=
  if (pvWithReturns crs).length < 10 then none
  else
    let eff := effectiveWindowDays crs
    if eff < MINIMUM_WINDOW_DAYS then none
    else
      let eligible := eligibleConstituents crs
      if eligible.length < 10 then none
      else
        let normalized := eligible.map (truncateReturns eff)
        let total := (normalized.map CReturns.marketCap).sum
        some { windowDays := eff
               numConstituents := normalized.length
               totalMarketCap := total
               constituents := normalized
               weights := normalized.map (fun c => c.marketCap / total) }

/-! ## Correlation endpoint (`routes/volatility.js` correlation route) -/

/-- The radicand of `calculateCorrelation`'s denominator:
`(n·ΣX² − (ΣX)²) · (n·ΣY² − (ΣY)²)`. -/
def corrRadicand (x y : List ℚ) : ℚ :=
  let n : ℚ := x.length
  (n * (x.map (fun a => a * a)).sum - x.sum * x.sum) *
    (n * (y.map (fun a => a * a)).sum - y.sum * y.sum)

/-- `calculateCorrelation`: Pearson correlation, returning 0 on length
mismatch, empty input, or a zero denominator.  `Math.sqrt` is modelled by the
exact-rational `Rat.sqrt`; both are zero exactly on a zero radicand (for the
nonnegative radicands that arise here), which is all the zero-guard
observes. -/
def calculateCorrelation (x y : List ℚ) : ℚ :=
  if x.length ≠ y.length ∨ x.length = 0 then 0
  else
    let n : ℚ := x.length
    let sumXY := ((x.zip y).map (fun p => p.1 * p.2)).sum
    let numerator := n * sumXY - x.sum * y.sum
    let denominator := Rat.sqrt (corrRadicand x y)
    if denominator = 0 then 0 else numerator / denominator

/-- The endpoint's response fields the claim references: the correlation
value, the overlapping data-point count, and whether the insufficient-data
message was attached. -/
structure CorrelationResponse where
  correlation : ℚ
  dataPoints : Nat
  insufficientData : Bool
  deriving DecidableEq, Repr

/-- The `/volatility/correlation` handler after the date-aligned join: fewer
than 2 overlapping return dates short-circuit to correlation 0 with an
explanatory message; otherwise the Pearson correlation of the two aligned
series is returned. -/
def correlationEndpoint (overlap : List (ℚ × ℚ)) : CorrelationResponse :=
  if overlap.length < 2 then
    { correlation := 0, dataPoints := overlap.length, insufficientData := true }
  else
    { correlation :=
        calculateCorrelation (overlap.map Prod.fst) (overlap.map Prod.snd),
      dataPoints := overlap.length, insufficientData := false }

/-! ## Concrete data for witnesses and counterexamples -/

/-- A crypto whose daily slots are current for `today = 1000` (yesterday =
day 999 present in both tables) but whose `market_data` holds only one row in
the trailing 90 days. -/
def exDbHourlyGap : List CryptoSeries :=
  [{ id := 1, hasCoingeckoId := true, ohlcDates := [999], mdDays := [999] }]

/-- A crypto current for the daily pass and holding 500 recent `market_data`
rows, so the hourly pass skips it too. -/
def exDbCurrent : List CryptoSeries :=
  [{ id := 1, hasCoingeckoId := true, ohlcDates := [999],
     mdDays := List.replicate 500 999 }]

/-- A crypto with completely empty `ohlc` and `market_data` tables. -/
def emptySeries : CryptoSeries :=
  { id := 2, hasCoingeckoId := true, ohlcDates := [], mdDays := [] }

/-- A base-snapshot row: market cap $6.25B, ample volume, no categories. -/
def baseRow : MarketRow :=
  { crypto_id := 1, price_usd := 6250000000, circulating_supply := 1,
    volume_24h_usd := 1000000, categories := none }

/-- 80 such rows: total market cap $500B. -/
def baseSnapshot : List MarketRow := List.replicate 80 baseRow

/-- A later-snapshot row: market cap $6.875B. -/
def laterRow : MarketRow :=
  { crypto_id := 1, price_usd := 6875000000, circulating_supply := 1,
    volume_24h_usd := 1000000, categories := none }

/-- 80 such rows: total market cap $550B. -/
def laterSnapshot : List MarketRow := List.replicate 80 laterRow

/-- An index config carrying the divisor $5B computed from `baseSnapshot`. -/
def exampleConfig : IndexConfig := { divisor := 5000000000, base_date := 0 }

/-- A top-ranked, high-volume asset tagged `"Wrapped Tokens"`. -/
def wrappedRow : MarketRow :=
  { crypto_id := 3, price_usd := 100, circulating_supply := 10,
    volume_24h_usd := 50000000, categories := some ["Wrapped Tokens"] }

/-- Five portfolio constituents: too few for a portfolio-volatility row. -/
def pvSmallInput : List CReturns :=
  List.replicate 5 { crypto_id := 1, marketCap := 1, returns := [1] }

/-- Twelve constituents with seven days of history each. -/
def pvTestInput : List CReturns :=
  List.replicate 12 { crypto_id := 1, marketCap := 2, returns := List.replicate 7 (1 : ℚ) }

/-! ## Helper lemmas -/

theorem listSumMapMul {α : Type} (l : List α) (f : α → ℚ) (k : ℚ) :
    (l.map (fun c => f c * k)).sum = (l.map f).sum * k := by
  induction l with
  | nil => simp
  | cons a t ih => simp [ih, add_mul]

theorem listSumMapDiv {α : Type} (l : List α) (f : α → ℚ) (t : ℚ) :
    (l.map (fun c => f c / t)).sum = (l.map f).sum / t := by
  simpa [div_eq_mul_inv] using listSumMapMul l f t⁻¹

theorem mem_drop_range {n k i : Nat} (h : i ∈ (List.range n).drop k) :
    k ≤ i ∧ i < n := by
  obtain ⟨j, hj, rfl⟩ := List.mem_iff_getElem.1 h
  rw [List.getElem_drop, List.getElem_range]
  have hkj : k + j < n := by
    have := hj
    simp [List.length_drop, List.length_range] at this
    omega
  exact ⟨Nat.le_add_right _ _, hkj⟩

theorem mem_allDatesList {today d : Nat} (h : d ∈ allDatesList today) :
    ∃ i, i < RECOVERY_WINDOW_DAYS ∧ d = today - (i + 1) := by
  obtain ⟨i, hi, rfl⟩ := List.mem_map.1 h
  exact ⟨i, List.mem_range.1 hi, rfl⟩

/-! ## Claim C1 -/

/-- Claim C1 (as stated) is false: in a database state where no asset with a
known external identifier is missing yesterday's slot in either watched table
(`today = 1000`, yesterday = 999 present in `ohlc` and `market_data`), a run
of the backfill command still performs one external API call, because the
hourly pass selects every asset with fewer than `HOURLY_ENTRY_THRESHOLD`
`market_data` rows in the trailing 90 days. -/
theorem claim_C1_counterexample :
    (∀ c ∈ exDbHourlyGap, c.hasCoingeckoId = true →
      ((999 : Nat) ∈ c.ohlcDates ∧ (999 : Nat) ∈ c.mdDays)) ∧
    totalApiCalls 1000 exDbHourlyGap ≠ 0 := by
  refine ⟨by decide, by decide⟩

/-- Claim C1 (amended): if no asset with a known external identifier is
missing yesterday's slot in any watched table, the daily pass performs zero
external API calls; if additionally every such asset has at least
`HOURLY_ENTRY_THRESHOLD` `market_data` rows in the trailing 90-day window,
the whole run (daily pass plus hourly pass) performs zero external calls. -/
theorem claim_C1_amended (today : Nat) (db : List CryptoSeries)
    (hdaily : ∀ c ∈ db, c.hasCoingeckoId = true →
      (today - 1) ∈ c.ohlcDates ∧ (today - 1) ∈ c.mdDays) :
    dailyApiCalls today db = 0 ∧
    ((∀ c ∈ db, c.hasCoingeckoId = true →
        HOURLY_ENTRY_THRESHOLD ≤ hourlyEntryCount today c) →
      totalApiCalls today db = 0) := by
  have hdet : detectCryptosWithDailyGaps today db = [] := by
    rw [detectCryptosWithDailyGaps, List.filter_eq_nil_iff]
    intro c hc
    simp only [Bool.and_eq_true, not_and, missesYesterday]
    intro hid
    obtain ⟨h1, h2⟩ := hdaily c hc hid
    simp [h1, h2]
  have hd : dailyApiCalls today db = 0 := by
    simp [dailyApiCalls, hdet]
  refine ⟨hd, fun hh => ?_⟩
  have hdet2 : detectCryptosNeedingHourlyBackfill today db = [] := by
    rw [detectCryptosNeedingHourlyBackfill, List.filter_eq_nil_iff]
    intro c hc
    simp only [Bool.and_eq_true, not_and, decide_eq_true_eq]
    intro hid
    exact Nat.not_lt.2 (hh c hc hid)
  simp [totalApiCalls, hd, hourlyApiCalls, hdet2]

set_option maxRecDepth 20000 in
/-- Witness: on a state that is current for both passes, the amended theorem
yields zero total external calls. -/
theorem claim_C1_amended_witness : totalApiCalls 1000 exDbCurrent = 0 :=
  (claim_C1_amended 1000 exDbCurrent (by decide)).2 (by decide)

/-! ## Claim C3 -/

/-- Claim C3: the look-back computed by the detailed gap pass equals
`(today − oldest missing date) + DAYS_BUFFER` clamped to
`[3, RECOVERY_WINDOW_DAYS]`; when only yesterday is missing it is 3; and with
completely empty tables each watched table misses exactly
`RECOVERY_WINDOW_DAYS = 730` dates and the look-back is 730. -/
theorem claim_C3 (today : Nat) (c : CryptoSeries)
    (htoday : RECOVERY_WINDOW_DAYS < today) :
    (∀ m, oldestMissingDate today c = some m →
      daysNeeded today c = min (today - m + DAYS_BUFFER) RECOVERY_WINDOW_DAYS ∧
      3 ≤ daysNeeded today c ∧ daysNeeded today c ≤ RECOVERY_WINDOW_DAYS) ∧
    (oldestMissingDate today c = some (today - 1) → daysNeeded today c = 3) ∧
    (c.ohlcDates = [] → c.mdDays = [] →
      (ohlcMissingDates today c).length = RECOVERY_WINDOW_DAYS ∧
      (mdMissingDates today c).length = RECOVERY_WINDOW_DAYS ∧
      daysNeeded today c = RECOVERY_WINDOW_DAYS) := by
  have hwin : RECOVERY_WINDOW_DAYS = 730 := rfl
  have hbuf : DAYS_BUFFER = 2 := rfl
  have hmain : ∀ m, oldestMissingDate today c = some m →
      daysNeeded today c = min (today - m + DAYS_BUFFER) RECOVERY_WINDOW_DAYS ∧
      3 ≤ daysNeeded today c ∧ daysNeeded today c ≤ RECOVERY_WINDOW_DAYS := by
    intro m hm
    have hformula : daysNeeded today c =
        min (today - m + DAYS_BUFFER) RECOVERY_WINDOW_DAYS := by
      simp [daysNeeded, hm]
    have hmem : m ∈ ohlcMissingDates today c ++ mdMissingDates today c :=
      (List.min?_eq_some_iff'.1 hm).1
    have hmem' : m ∈ allDatesList today := by
      rcases List.mem_append.1 hmem with h | h
      · rw [ohlcMissingDates] at h
        exact List.mem_of_mem_filter h
      · rw [mdMissingDates] at h
        exact List.mem_of_mem_filter h
    obtain ⟨i, hi, rfl⟩ := mem_allDatesList hmem'
    have hsub : today - (today - (i + 1)) = i + 1 := by omega
    rw [hformula, hsub]
    omega
  refine ⟨hmain, ?_, ?_⟩
  · intro hm
    have h := (hmain _ hm).1
    have hsub : today - (today - 1) = 1 := by omega
    rw [h, hsub]
    omega
  · intro h1 h2
    have hall : (allDatesList today).length = RECOVERY_WINDOW_DAYS := by
      simp [allDatesList]
    have ho : ohlcMissingDates today c = allDatesList today := by
      simp [ohlcMissingDates, h1]
    have hm : mdMissingDates today c = allDatesList today := by
      simp [mdMissingDates, h2]
    refine ⟨by rw [ho, hall], by rw [hm, hall], ?_⟩
    have hold : oldestMissingDate today c =
        some (today - RECOVERY_WINDOW_DAYS) := by
      rw [oldestMissingDate, ho, hm]
      refine List.min?_eq_some_iff'.2 ⟨?_, ?_⟩
      · refine List.mem_append.2 (Or.inl ?_)
        refine List.mem_map.2 ⟨RECOVERY_WINDOW_DAYS - 1, ?_, ?_⟩
        · exact List.mem_range.2 (by omega)
        · omega
      · intro b hb
        have hb' : b ∈ allDatesList today := by
          rcases List.mem_append.1 hb with h | h
          · exact h
          · exact h
        obtain ⟨i, hi, rfl⟩ := mem_allDatesList hb'
        omega
    have h := (hmain _ hold).1
    have hsub : today - (today - RECOVERY_WINDOW_DAYS) = RECOVERY_WINDOW_DAYS := by
      omega
    rw [h, hsub]
    omega

/-- Witness: for `today = 1000` and fully empty tables the detailed pass
reports 730 missing dates in each table and a 730-day look-back. -/
theorem claim_C3_witness :
    (ohlcMissingDates 1000 emptySeries).length = RECOVERY_WINDOW_DAYS ∧
    (mdMissingDates 1000 emptySeries).length = RECOVERY_WINDOW_DAYS ∧
    daysNeeded 1000 emptySeries = RECOVERY_WINDOW_DAYS :=
  (claim_C3 1000 emptySeries (by decide)).2.2 rfl rfl

/-! ## Claim C2 -/

/-- Claim C2: a persisted divisor different from the sentinel 1.0 is returned
as-is; an uninitialized divisor (no config, or sentinel 1.0) is computed from
the earliest snapshot as the selected constituents' market-cap sum divided by
`BASE_LEVEL` and anchored at that snapshot's date; every index level is the
timestamp's constituent market-cap sum divided by the divisor; and concretely
a $500B base snapshot yields divisor 5,000,000,000 while a later $550B
snapshot yields index level 110. -/
theorem claim_C2 (cfg : IndexConfig) (oldestMd marketData : List MarketRow)
    (oldestDate : Nat) :
    (cfg.divisor ≠ 1 →
      getOrCreateIndexConfig (some cfg) oldestMd oldestDate = .ok cfg) ∧
    (cfg.divisor = 1 →
      getOrCreateIndexConfig (some cfg) oldestMd oldestDate =
        (initDivisor oldestMd).map
          (fun d => { divisor := d, base_date := oldestDate })) ∧
    (selectConstituents oldestMd ≠ [] →
      getOrCreateIndexConfig none oldestMd oldestDate =
        .ok { divisor :=
                ((selectConstituents oldestMd).map marketCap).sum / BASE_LEVEL,
              base_date := oldestDate }) ∧
    (∀ row, calculateIndexForTimestamp cfg marketData = .ok row →
      row.totalMarketCap = ((selectConstituents marketData).map marketCap).sum ∧
      row.indexLevel = row.totalMarketCap / cfg.divisor) ∧
    initDivisor baseSnapshot = .ok 5000000000 ∧
    Except.map IndexRow.indexLevel
      (calculateIndexForTimestamp exampleConfig laterSnapshot) = .ok 110 := by
  refine ⟨?_, ?_, ?_, ?_, ?_, ?_⟩
  · intro h
    simp [getOrCreateIndexConfig, h]
  · intro h
    simp [getOrCreateIndexConfig, h]
  · intro h
    have hni : (selectConstituents oldestMd).isEmpty = false := by
      simpa using h
    simp [getOrCreateIndexConfig, initDivisor, hni, Except.map]
  · intro row hrow
    simp only [calculateIndexForTimestamp] at hrow
    split at hrow
    · simp at hrow
    · split at hrow
      · simp at hrow
      · rw [Except.ok.injEq] at hrow
        subst hrow
        exact ⟨rfl, rfl⟩
  · have hpred : (!(isExcluded baseRow) &&
        !(baseRow.volume_24h_usd < MIN_VOLUME_24H)) = true := by decide
    have hsel : selectConstituents baseSnapshot = List.replicate 80 baseRow := by
      rw [baseSnapshot, selectConstituents, List.filter_replicate]
      rw [if_pos hpred, List.take_replicate]
      norm_num [MAX_CONSTITUENTS]
    simp only [initDivisor, hsel]
    rw [List.map_replicate, List.sum_replicate, nsmul_eq_mul]
    norm_num [marketCap, baseRow, BASE_LEVEL]
  · have hpred : (!(isExcluded laterRow) &&
        !(laterRow.volume_24h_usd < MIN_VOLUME_24H)) = true := by decide
    have hsel : selectConstituents laterSnapshot = List.replicate 80 laterRow := by
      rw [laterSnapshot, selectConstituents, List.filter_replicate]
      rw [if_pos hpred, List.take_replicate]
      norm_num [MAX_CONSTITUENTS]
    have hne : laterSnapshot.isEmpty = false := by
      rw [laterSnapshot]
      simp
    simp only [calculateIndexForTimestamp, hne, hsel, Bool.false_eq_true,
      if_false]
    rw [List.map_replicate, List.sum_replicate, nsmul_eq_mul]
    norm_num [marketCap, laterRow, exampleConfig, MAX_CONSTITUENTS, Except.map]

/-- Witness: the divisor branch hypotheses discharged on the concrete $500B /
$550B example. -/
theorem claim_C2_witness :
    getOrCreateIndexConfig (some exampleConfig) baseSnapshot 0 =
      .ok exampleConfig ∧
    getOrCreateIndexConfig none baseSnapshot 0 =
      .ok { divisor := ((selectConstituents baseSnapshot).map marketCap).sum /
              BASE_LEVEL,
            base_date := 0 } := by
  have h := claim_C2 exampleConfig baseSnapshot laterSnapshot 0
  exact ⟨h.1 (by decide), h.2.2.1 (by decide)⟩

/-! ## Claim C8 -/

theorem runIndexBackfill_append (cfg : IndexConfig)
    (l1 l2 : List (List MarketRow)) :
    runIndexBackfill cfg (l1 ++ l2) =
      ((runIndexBackfill cfg l1).1 ++ (runIndexBackfill cfg l2).1,
       (runIndexBackfill cfg l1).2.1 + (runIndexBackfill cfg l2).2.1,
       (runIndexBackfill cfg l1).2.2 + (runIndexBackfill cfg l2).2.2) := by
  induction l1 with
  | nil => simp [runIndexBackfill]
  | cons md rest ih =>
    cases h : calculateIndexForTimestamp cfg md with
    | ok row =>
      simp only [List.cons_append, runIndexBackfill, h, List.append_eq, ih,
        Prod.mk.injEq]
      refine ⟨?_, ?_, ?_⟩ <;> first | trivial | omega
    | error e =>
      simp only [List.cons_append, runIndexBackfill, h, List.append_eq, ih,
        Prod.mk.injEq]
      refine ⟨?_, ?_, ?_⟩ <;> first | trivial | omega

/-- Claim C8: when the post-filter constituent count of a timestamp falls
below `MAX_CONSTITUENTS`, its computation fails with a thrown error and
produces no `index_history` row; the loop catches the failure, counts it, and
continues, so the rows of all other timestamps (earlier and later) are
exactly preserved. -/
theorem claim_C8 (cfg : IndexConfig) (pre post : List (List MarketRow))
    (md : List MarketRow)
    (h : (selectConstituents md).length < MAX_CONSTITUENTS) :
    (∃ e, calculateIndexForTimestamp cfg md = .error e) ∧
    runIndexBackfill cfg (pre ++ md :: post) =
      ((runIndexBackfill cfg pre).1 ++ (runIndexBackfill cfg post).1,
       (runIndexBackfill cfg pre).2.1 + (runIndexBackfill cfg post).2.1,
       (runIndexBackfill cfg pre).2.2 +
         ((runIndexBackfill cfg post).2.2 + 1)) := by
  have herr : ∃ e, calculateIndexForTimestamp cfg md = .error e := by
    by_cases hme : md.isEmpty = true
    · exact ⟨_, by rw [calculateIndexForTimestamp, if_pos hme]⟩
    · refine ⟨"Not enough constituents for timestamp", ?_⟩
      rw [calculateIndexForTimestamp, if_neg hme]
      exact if_pos h
  refine ⟨herr, ?_⟩
  obtain ⟨e, he⟩ := herr
  rw [runIndexBackfill_append]
  simp only [runIndexBackfill, he]

/-- Witness: one good timestamp followed by an empty-snapshot timestamp — the
bad timestamp is counted as an error while the good timestamp's row
survives. -/
theorem claim_C8_witness :
    (∃ e, calculateIndexForTimestamp exampleConfig [] = .error e) ∧
    runIndexBackfill exampleConfig ([laterSnapshot] ++ [] :: []) =
      ((runIndexBackfill exampleConfig [laterSnapshot]).1 ++
         (runIndexBackfill exampleConfig []).1,
       (runIndexBackfill exampleConfig [laterSnapshot]).2.1 +
         (runIndexBackfill exampleConfig []).2.1,
       (runIndexBackfill exampleConfig [laterSnapshot]).2.2 +
         ((runIndexBackfill exampleConfig []).2.2 + 1)) :=
  claim_C8 exampleConfig [laterSnapshot] [] [] (by decide)

/-! ## Claim C9 -/

/-- Claim C9: an asset is excluded exactly when some category tag,
lowercased, contains one of the substrings `stablecoin`, `wrapped`,
`staking`, `staked`; selected constituents are never excluded and never below
the volume threshold; removing an excluded or low-volume asset anywhere in
the ranking leaves the selection unchanged (rank independence); and on
market-cap-descending input the selection is the top `MAX_CONSTITUENTS` by
market cap: it stays sorted, has at most 80 entries, and every kept-but-
unselected asset has market cap at most that of every selected one. -/
theorem claim_C9 (md pre post : List MarketRow) (c : MarketRow) :
    (isExcluded c = true ↔ ∃ tag ∈ c.categories.getD [],
        (containsTag "stablecoin" (lowerString tag) = true ∨
         containsTag "wrapped" (lowerString tag) = true ∨
         containsTag "staking" (lowerString tag) = true ∨
         containsTag "staked" (lowerString tag) = true)) ∧
    (∀ x ∈ selectConstituents md,
      isExcluded x = false ∧ MIN_VOLUME_24H ≤ x.volume_24h_usd) ∧
    ((isExcluded c = true ∨ c.volume_24h_usd < MIN_VOLUME_24H) →
      selectConstituents (pre ++ c :: post) =
        selectConstituents (pre ++ post)) ∧
    (selectConstituents md).length ≤ MAX_CONSTITUENTS ∧
    (List.Pairwise (fun a b => marketCap b ≤ marketCap a) md →
      List.Pairwise (fun a b => marketCap b ≤ marketCap a)
        (selectConstituents md) ∧
      ∀ x ∈ selectConstituents md, ∀ d ∈ md,
        isExcluded d = false → MIN_VOLUME_24H ≤ d.volume_24h_usd →
        d ∉ selectConstituents md → marketCap d ≤ marketCap x) := by
  refine ⟨?_, ?_, ?_, ?_, ?_⟩
  · simp only [isExcluded, Bool.or_eq_true, isStablecoin, isWrapped, isStaked,
      parseCategories, List.any_eq_true, List.mem_map,
      exists_exists_and_eq_and]
    constructor
    · rintro ((⟨t, ht, hp⟩ | ⟨t, ht, hp⟩) | ⟨t, ht, hp⟩)
      · exact ⟨t, ht, Or.inl hp⟩
      · exact ⟨t, ht, Or.inr (Or.inl hp)⟩
      · rcases hp with hp | hp
        · exact ⟨t, ht, Or.inr (Or.inr (Or.inl hp))⟩
        · exact ⟨t, ht, Or.inr (Or.inr (Or.inr hp))⟩
    · rintro ⟨t, ht, hp | hp | hp | hp⟩
      · exact Or.inl (Or.inl ⟨t, ht, hp⟩)
      · exact Or.inl (Or.inr ⟨t, ht, hp⟩)
      · exact Or.inr ⟨t, ht, by simp [hp]⟩
      · exact Or.inr ⟨t, ht, by simp [hp]⟩
  · intro x hx
    have hx' : x ∈ md.filter
        (fun c => !(isExcluded c) && !(c.volume_24h_usd < MIN_VOLUME_24H)) :=
      List.mem_of_mem_take hx
    have hp := (List.mem_filter.1 hx').2
    simp only [Bool.and_eq_true, Bool.not_eq_true', decide_eq_false_iff_not,
      not_lt] at hp
    exact ⟨hp.1, hp.2⟩
  · intro h
    have hpred : (!(isExcluded c) &&
        !(decide (c.volume_24h_usd < MIN_VOLUME_24H))) = false := by
      rcases h with h | h
      · simp [h]
      · simp [h]
    rw [selectConstituents, selectConstituents, List.filter_append,
      List.filter_append, List.filter_cons_of_neg (by simpa using hpred)]
  · exact List.length_take_le _ _
  · intro hsort
    have hfil : List.Pairwise (fun a b => marketCap b ≤ marketCap a)
        (md.filter
          (fun c => !(isExcluded c) && !(c.volume_24h_usd < MIN_VOLUME_24H))) :=
      hsort.filter _
    constructor
    · exact hfil.sublist (List.take_sublist _ _)
    · intro x hx d hd hdexc hdvol hdnot
      have hdf : d ∈ md.filter
          (fun c => !(isExcluded c) && !(c.volume_24h_usd < MIN_VOLUME_24H)) := by
        refine List.mem_filter.2 ⟨hd, ?_⟩
        simp [hdexc, not_lt.2 hdvol]
      rw [← List.take_append_drop MAX_CONSTITUENTS
        (md.filter
          (fun c => !(isExcluded c) && !(c.volume_24h_usd < MIN_VOLUME_24H)))]
        at hdf hfil
      rcases List.mem_append.1 hdf with hdt | hdd
      · exact absurd hdt hdnot
      · exact (List.pairwise_append.1 hfil).2.2 x hx d hdd

/-- Witness: a top-ranked `"Wrapped Tokens"` asset is dropped from the
selection while the remaining valid rows are kept. -/
theorem claim_C9_witness :
    selectConstituents ([] ++ wrappedRow :: [baseRow, laterRow]) =
      selectConstituents ([] ++ [baseRow, laterRow]) ∧
    (∀ x ∈ selectConstituents [wrappedRow, baseRow, laterRow],
      isExcluded x = false ∧ MIN_VOLUME_24H ≤ x.volume_24h_usd) := by
  have h9 := claim_C9 [wrappedRow, baseRow, laterRow] [] [baseRow, laterRow]
    wrappedRow
  exact ⟨h9.2.2.1 (Or.inl (by decide)), h9.2.1⟩

/-! ## Portfolio-volatility inversion -/

theorem calcPV_some_spec (crs : List CReturns) (row : PVRow)
    (h : calculatePortfolioVolatilityForDate crs = some row) :
    10 ≤ (pvWithReturns crs).length ∧
    MINIMUM_WINDOW_DAYS ≤ effectiveWindowDays crs ∧
    10 ≤ (eligibleConstituents crs).length ∧
    row = { windowDays := effectiveWindowDays crs,
            numConstituents := ((eligibleConstituents crs).map
              (truncateReturns (effectiveWindowDays crs))).length,
            totalMarketCap := (((eligibleConstituents crs).map
              (truncateReturns (effectiveWindowDays crs))).map
                CReturns.marketCap).sum,
            constituents := (eligibleConstituents crs).map
              (truncateReturns (effectiveWindowDays crs)),
            weights := ((eligibleConstituents crs).map
              (truncateReturns (effectiveWindowDays crs))).map
                (fun c => c.marketCap /
                  (((eligibleConstituents crs).map
                    (truncateReturns (effectiveWindowDays crs))).map
                      CReturns.marketCap).sum) } := by
  simp only [calculatePortfolioVolatilityForDate] at h
  split at h
  · simp at h
  · split at h
    · simp at h
    · split at h
      · simp at h
      · rw [Option.some.injEq] at h
        subst h
        exact ⟨by omega, by omega, by omega, rfl⟩

/-! ## Claim C7 -/

/-- Claim C7: for a stored Index History row the constituent weights
`marketCap / total * 100` over the selected set sum to exactly 100 (the
embedding computes in exact rationals, so the floating-point tolerance is
0), and for a stored Portfolio Volatility row the weights
`marketCap / total` sum to exactly 1; in both cases the total is the sum of
the same selected constituents' market caps, and market caps are positive as
guaranteed by the feeding queries (`market_cap > 0` predicates). -/
theorem claim_C7 (constituents : List MarketRow) (crs : List CReturns) :
    (constituents ≠ [] → (∀ x ∈ constituents, 0 < marketCap x) →
      (constituentWeights constituents
        ((constituents.map marketCap).sum)).sum = 100) ∧
    (∀ row, calculatePortfolioVolatilityForDate crs = some row →
      (∀ x ∈ crs, 0 < x.marketCap) → row.weights.sum = 1) := by
  constructor
  · intro hne hpos
    have hT : 0 < (constituents.map marketCap).sum := by
      refine List.sum_pos _ ?_ (by simpa using hne)
      intro a ha
      obtain ⟨x, hx, rfl⟩ := List.mem_map.1 ha
      exact hpos x hx
    rw [constituentWeights, listSumMapMul constituents
      (fun c => marketCap c / (constituents.map marketCap).sum) 100,
      listSumMapDiv, div_self hT.ne', one_mul]
  · intro row hrow hpos
    obtain ⟨h10, heff, hel, rfl⟩ := calcPV_some_spec crs row hrow
    set normalized := (eligibleConstituents crs).map
      (truncateReturns (effectiveWindowDays crs)) with hnorm
    have hmem : ∀ x ∈ normalized, 0 < x.marketCap := by
      intro x hx
      obtain ⟨y, hy, rfl⟩ := List.mem_map.1 hx
      have hy1 : y ∈ pvWithReturns crs := List.mem_of_mem_filter hy
      have hy2 : y ∈ crs := List.mem_of_mem_filter hy1
      exact hpos y hy2
    have hne : normalized ≠ [] := by
      intro hcon
      rw [hnorm, List.map_eq_nil_iff] at hcon
      rw [hcon] at hel
      simp at hel
    have hT : 0 < (normalized.map CReturns.marketCap).sum := by
      refine List.sum_pos _ ?_ (by simpa using hne)
      intro a ha
      obtain ⟨x, hx, rfl⟩ := List.mem_map.1 ha
      exact hmem x hx
    show (normalized.map (fun c => c.marketCap /
      (normalized.map CReturns.marketCap).sum)).sum = 1
    rw [listSumMapDiv normalized (fun c => c.marketCap)
      ((normalized.map CReturns.marketCap).sum)]
    exact div_self hT.ne'

/-- Witness: weight sums on a concrete three-constituent index row and a
concrete twelve-constituent portfolio row. -/
theorem claim_C7_witness :
    (constituentWeights [wrappedRow, baseRow, laterRow]
      (([wrappedRow, baseRow, laterRow].map marketCap).sum)).sum = 100 ∧
    ∀ row, calculatePortfolioVolatilityForDate pvTestInput = some row →
      row.weights.sum = 1 := by
  have h := claim_C7 [wrappedRow, baseRow, laterRow] pvTestInput
  refine ⟨h.1 (by decide) ?_, fun row hrow => h.2 row hrow ?_⟩
  · intro x hx
    fin_cases hx <;> norm_num [marketCap, wrappedRow, baseRow, laterRow]
  · decide

/-! ## Claim C4 -/

/-- Claim C4: the effective window is the maximum available return-history
length capped at `DEFAULT_WINDOW_DAYS`; no row is produced when the window
falls below `MINIMUM_WINDOW_DAYS` or when fewer than 10 constituents remain
before or after the window filter; shorter-history constituents are excluded
rather than zero-filled; and every surviving constituent's series is
truncated to exactly the last `effective window` observations (a right-
aligned suffix of its chronological series). -/
theorem claim_C4 (crs : List CReturns) :
    ((pvWithReturns crs).length < 10 →
      calculatePortfolioVolatilityForDate crs = none) ∧
    (effectiveWindowDays crs < MINIMUM_WINDOW_DAYS →
      calculatePortfolioVolatilityForDate crs = none) ∧
    ((eligibleConstituents crs).length < 10 →
      calculatePortfolioVolatilityForDate crs = none) ∧
    (∀ row, calculatePortfolioVolatilityForDate crs = some row →
      row.windowDays = min (maxAvailableDays crs) DEFAULT_WINDOW_DAYS ∧
      MINIMUM_WINDOW_DAYS ≤ row.windowDays ∧
      10 ≤ (pvWithReturns crs).length ∧
      10 ≤ row.constituents.length ∧
      row.constituents = (eligibleConstituents crs).map
        (truncateReturns row.windowDays) ∧
      (∀ x ∈ eligibleConstituents crs, row.windowDays ≤ x.returns.length) ∧
      (∀ x ∈ row.constituents, x.returns.length = row.windowDays) ∧
      (∀ x ∈ eligibleConstituents crs,
        List.IsSuffix (truncateReturns row.windowDays x).returns
          x.returns)) := by
  have hnone : ∀ (P : Prop), ((∀ row,
      calculatePortfolioVolatilityForDate crs = some row → ¬P) → P →
      calculatePortfolioVolatilityForDate crs = none) := by
    intro P hP h
    cases hc : calculatePortfolioVolatilityForDate crs with
    | none => rfl
    | some row => exact absurd h (hP row hc)
  refine ⟨?_, ?_, ?_, ?_⟩
  · refine hnone _ ?_
    intro row hc
    obtain ⟨h10, -, -, -⟩ := calcPV_some_spec crs row hc
    omega
  · refine hnone _ ?_
    intro row hc
    obtain ⟨-, heff, -, -⟩ := calcPV_some_spec crs row hc
    omega
  · refine hnone _ ?_
    intro row hc
    obtain ⟨-, -, hel, -⟩ := calcPV_some_spec crs row hc
    omega
  · intro row hrow
    obtain ⟨h10, heff, hel, rfl⟩ := calcPV_some_spec crs row hrow
    have heligible : ∀ x ∈ eligibleConstituents crs,
        effectiveWindowDays crs ≤ x.returns.length := by
      intro x hx
      have := (List.mem_filter.1 hx).2
      simpa using this
    refine ⟨rfl, heff, h10, ?_, rfl, heligible, ?_, ?_⟩
    · simpa using hel
    · intro x hx
      obtain ⟨y, hy, rfl⟩ := List.mem_map.1 hx
      have hly := heligible y hy
      simp only [truncateReturns, List.length_drop]
      omega
    · intro x hx
      exact List.drop_suffix _ _

/-- Witness: five constituents are too few, so no portfolio-volatility row is
produced. -/
theorem claim_C4_witness :
    calculatePortfolioVolatilityForDate pvSmallInput = none :=
  (claim_C4 pvSmallInput).1 (by decide)

/-! ## Claim C5 -/

theorem filterMapSomeMap {α β : Type} (f : α → Option β) (g : α → β)
    (h : β → α) (hf : ∀ a, f a = some (g a)) (hg : ∀ a, h (g a) = a)
    (L : List α) : (L.filterMap f).map h = L := by
  induction L with
  | nil => rfl
  | cons a t ih => rw [List.filterMap_cons, hf a, List.map_cons, hg a, ih]

theorem maWindowCloses_eq (maxW : Nat) (closes : List ℚ) (i : Nat) :
    maWindowCloses maxW closes i =
      (closes.take (i + 1)).drop (i + 1 - min (i + 1) maxW) := by
  rw [maWindowCloses, List.take_drop]
  have h : i + 1 - min (i + 1) maxW + min (i + 1) maxW = i + 1 := by omega
  rw [h]

theorem maWindowCloses_length (maxW : Nat) (closes : List ℚ) (i : Nat)
    (h : i < closes.length) :
    (maWindowCloses maxW closes i).length = min (i + 1) maxW := by
  simp only [maWindowCloses, List.length_take, List.length_drop]
  omega

/-- Claim C5: with at least `minW` closes, the calculator emits one row per
chronological index from `minW - 1` onward; the row at index `i` carries
`window_days = min (i+1, maxW)` and the arithmetic mean of the trailing
`window_days` closes ending at that date; and on closes `[100, 110, 121]`
with a minimum window of 2 the moving average stored for the second day
is 105. -/
theorem claim_C5 (minW maxW : Nat) (closes : List ℚ)
    (hlen : minW ≤ closes.length) :
    ((calculateMAForCrypto minW maxW [] closes).map MARow.dateIdx =
      (List.range closes.length).drop (minW - 1)) ∧
    (∀ row ∈ calculateMAForCrypto minW maxW [] closes,
      row.windowDays = min (row.dateIdx + 1) maxW ∧
      minW - 1 ≤ row.dateIdx ∧ row.dateIdx < closes.length ∧
      row.movingAverage =
        (maWindowCloses maxW closes row.dateIdx).sum / row.windowDays ∧
      maWindowCloses maxW closes row.dateIdx =
        (closes.take (row.dateIdx + 1)).drop
          (row.dateIdx + 1 - row.windowDays) ∧
      (maWindowCloses maxW closes row.dateIdx).length = row.windowDays ∧
      row.numObservations = row.windowDays) ∧
    ((calculateMAForCrypto 2 DEFAULT_WINDOW_DAYS [] [100, 110, 121]).map
      (fun r => (r.dateIdx, r.windowDays, r.movingAverage)) =
      [(1, 2, 105), (2, 3, 331 / 3)]) := by
  have hnl : ¬ closes.length < minW := not_lt.2 hlen
  refine ⟨?_, ?_, ?_⟩
  · rw [calculateMAForCrypto, if_neg hnl]
    exact filterMapSomeMap _ (fun i => maRowAt maxW closes i) MARow.dateIdx
      (fun a => rfl) (fun a => rfl) _
  · intro row hrow
    rw [calculateMAForCrypto, if_neg hnl] at hrow
    obtain ⟨i, hi, hf⟩ := List.mem_filterMap.1 hrow
    simp only [List.not_mem_nil, if_false, Option.some.injEq] at hf
    subst hf
    obtain ⟨hge, hlt⟩ := mem_drop_range hi
    have hl := maWindowCloses_length maxW closes i hlt
    refine ⟨rfl, hge, hlt, ?_, maWindowCloses_eq maxW closes i, hl, hl⟩
    show smaAt maxW closes i =
      (maWindowCloses maxW closes i).sum / ((min (i + 1) maxW : Nat) : ℚ)
    rw [smaAt, hl]
  · have hL : (List.range ([100, 110, 121] : List ℚ).length).drop (2 - 1) =
        [1, 2] := by decide
    rw [calculateMAForCrypto, if_neg (by norm_num), hL]
    simp only [List.filterMap_cons, List.filterMap_nil, List.not_mem_nil,
      if_false, List.map_cons, List.map_nil]
    norm_num [maRowAt, smaAt, maWindowCloses, DEFAULT_WINDOW_DAYS]

/-- Witness: the `[100, 110, 121]` instance of the moving-average law. -/
theorem claim_C5_witness :
    (calculateMAForCrypto 2 DEFAULT_WINDOW_DAYS [] [100, 110, 121]).map
      (fun r => (r.dateIdx, r.windowDays, r.movingAverage)) =
      [(1, 2, 105), (2, 3, 331 / 3)] :=
  (claim_C5 2 DEFAULT_WINDOW_DAYS [100, 110, 121] (by norm_num)).2.2

/-! ## Claim C6 -/

set_option maxRecDepth 8000 in
/-- Claim C6: re-running the moving-average calculator or the VaR/CVaR
calculator with the keys of the first run already stored inserts zero new
rows — each `(date, window_days)` key is skipped when present — and the values
a run stores for a key are the deterministic window statistics of the input
series, hence identical across runs. -/
theorem claim_C6 (minW maxW : Nat) (closes returns : List ℚ)
    (existingMA existingV : List (Nat × Nat)) :
    calculateMAForCrypto minW maxW
      (existingMA ++ (calculateMAForCrypto minW maxW existingMA closes).map
        (fun r => (r.dateIdx, r.windowDays))) closes = [] ∧
    calculateVaRForCrypto
      (existingV ++ (calculateVaRForCrypto existingV returns).map
        (fun r => (r.dateIdx, r.windowDays))) returns = [] ∧
    (∀ r ∈ calculateMAForCrypto minW maxW existingMA closes,
      r = maRowAt maxW closes r.dateIdx ∧
      r.movingAverage = smaAt maxW closes r.dateIdx ∧
      r.windowDays = min (r.dateIdx + 1) maxW) ∧
    (∀ r ∈ calculateVaRForCrypto existingV returns,
      r = varRowAt returns r.dateIdx ∧
      r.meanReturn = meanQ (varWindowReturns returns r.dateIdx) ∧
      r.windowDays = (varWindowReturns returns r.dateIdx).length) := by
  refine ⟨?_, ?_, ?_, ?_⟩
  · by_cases hl : closes.length < minW
    · rw [calculateMAForCrypto, if_pos hl]
    · rw [calculateMAForCrypto, if_neg hl]
      rw [List.filterMap_eq_nil_iff]
      intro i hi
      show (if (i, min (i + 1) maxW) ∈ existingMA ++
          (calculateMAForCrypto minW maxW existingMA closes).map
            (fun r => (r.dateIdx, r.windowDays)) then none
        else some (maRowAt maxW closes i)) = none
      by_cases hex : (i, min (i + 1) maxW) ∈ existingMA
      · rw [if_pos (List.mem_append.2 (Or.inl hex))]
      · refine if_pos (List.mem_append.2 (Or.inr ?_))
        refine List.mem_map.2 ⟨maRowAt maxW closes i, ?_, rfl⟩
        rw [calculateMAForCrypto, if_neg hl]
        refine List.mem_filterMap.2 ⟨i, hi, ?_⟩
        show (if (i, min (i + 1) maxW) ∈ existingMA then none
          else some (maRowAt maxW closes i)) = some (maRowAt maxW closes i)
        rw [if_neg hex]
  · by_cases hl : returns.length < MINIMUM_DATA_POINTS
    · rw [calculateVaRForCrypto, if_pos hl]
    · rw [calculateVaRForCrypto, if_neg hl]
      rw [List.filterMap_eq_nil_iff]
      intro i hi
      show (if (i, (varWindowReturns returns i).length) ∈ existingV ++
          (calculateVaRForCrypto existingV returns).map
            (fun r => (r.dateIdx, r.windowDays)) then none
        else some (varRowAt returns i)) = none
      by_cases hex : (i, (varWindowReturns returns i).length) ∈ existingV
      · rw [if_pos (List.mem_append.2 (Or.inl hex))]
      · refine if_pos (List.mem_append.2 (Or.inr ?_))
        refine List.mem_map.2 ⟨varRowAt returns i, ?_, rfl⟩
        rw [calculateVaRForCrypto, if_neg hl]
        refine List.mem_filterMap.2 ⟨i, hi, ?_⟩
        show (if (i, (varWindowReturns returns i).length) ∈ existingV then none
          else some (varRowAt returns i)) = some (varRowAt returns i)
        rw [if_neg hex]
  · intro r hr
    by_cases hl : closes.length < minW
    · rw [calculateMAForCrypto, if_pos hl] at hr
      exact absurd hr (List.not_mem_nil r)
    · rw [calculateMAForCrypto, if_neg hl] at hr
      obtain ⟨i, hi, hf⟩ := List.mem_filterMap.1 hr
      by_cases hex : (i, min (i + 1) maxW) ∈ existingMA
      · rw [if_pos hex] at hf
        exact absurd hf (by simp)
      · rw [if_neg hex, Option.some.injEq] at hf
        subst hf
        exact ⟨rfl, rfl, rfl⟩
  · intro r hr
    by_cases hl : returns.length < MINIMUM_DATA_POINTS
    · rw [calculateVaRForCrypto, if_pos hl] at hr
      exact absurd hr (List.not_mem_nil r)
    · rw [calculateVaRForCrypto, if_neg hl] at hr
      obtain ⟨i, hi, hf⟩ := List.mem_filterMap.1 hr
      by_cases hex : (i, (varWindowReturns returns i).length) ∈ existingV
      · rw [if_pos hex] at hf
        exact absurd hf (by simp)
      · rw [if_neg hex, Option.some.injEq] at hf
        subst hf
        exact ⟨rfl, rfl, rfl⟩

/-- Witness: a second moving-average run and a second VaR run over unchanged
inputs insert zero rows. -/
theorem claim_C6_witness :
    calculateMAForCrypto 2 90
      ([] ++ (calculateMAForCrypto 2 90 [] [100, 110, 121]).map
        (fun r => (r.dateIdx, r.windowDays))) [100, 110, 121] = [] ∧
    calculateVaRForCrypto
      ([] ++ (calculateVaRForCrypto [] [1, 1, 1, 1, 1, 1, 1]).map
        (fun r => (r.dateIdx, r.windowDays))) [1, 1, 1, 1, 1, 1, 1] = [] :=
  ⟨(claim_C6 2 90 [100, 110, 121] [1, 1, 1, 1, 1, 1, 1] [] []).1,
   (claim_C6 2 90 [100, 110, 121] [1, 1, 1, 1, 1, 1, 1] [] []).2.1⟩

/-! ## Claim C10 -/

/-- Claim C10: the Pearson correlation is total and returns 0 whenever the
series lengths differ, the series are empty, or the variance radicand under
the denominator's square root vanishes (as it does for every constant
series); and the endpoint answers correlation 0 with the insufficient-data
message whenever fewer than 2 overlapping return dates exist. -/
theorem claim_C10 (x y : List ℚ) (a : ℚ) (m : Nat)
    (overlap : List (ℚ × ℚ)) :
    (x.length ≠ y.length → calculateCorrelation x y = 0) ∧
    (x = [] → calculateCorrelation x y = 0) ∧
    (corrRadicand x y = 0 → calculateCorrelation x y = 0) ∧
    corrRadicand (List.replicate m a) y = 0 ∧
    (overlap.length < 2 →
      (correlationEndpoint overlap).correlation = 0 ∧
      (correlationEndpoint overlap).insufficientData = true) := by
  have hsqrt0 : Rat.sqrt 0 = 0 := by
    have h := Rat.sqrt_eq 0
    rw [mul_zero] at h
    rw [h, abs_zero]
  refine ⟨?_, ?_, ?_, ?_, ?_⟩
  · intro h
    rw [calculateCorrelation, if_pos (Or.inl h)]
  · intro h
    subst h
    rw [calculateCorrelation,
      if_pos (Or.inr (show ([] : List ℚ).length = 0 from rfl))]
  · intro h
    rw [calculateCorrelation]
    split
    · rfl
    · show (if Rat.sqrt (corrRadicand x y) = 0 then 0
        else (((x.length : ℚ) * ((x.zip y).map (fun p => p.1 * p.2)).sum -
          x.sum * y.sum)) / Rat.sqrt (corrRadicand x y)) = 0
      rw [h, hsqrt0, if_pos rfl]
  · have h1 : ((List.replicate m a).length : ℚ) *
        ((List.replicate m a).map (fun b => b * b)).sum -
        (List.replicate m a).sum * (List.replicate m a).sum = 0 := by
      rw [List.length_replicate, List.map_replicate, List.sum_replicate,
        List.sum_replicate, nsmul_eq_mul, nsmul_eq_mul]
      ring
    show (((List.replicate m a).length : ℚ) *
        ((List.replicate m a).map (fun b => b * b)).sum -
        (List.replicate m a).sum * (List.replicate m a).sum) *
      (((List.replicate m a).length : ℚ) * (y.map (fun b => b * b)).sum -
        y.sum * y.sum) = 0
    rw [h1, zero_mul]
  · intro h
    rw [correlationEndpoint, if_pos h]
    exact ⟨rfl, rfl⟩

/-- Witness: a constant series against a varying one yields correlation 0,
and a single overlapping data point triggers the insufficient-data
response. -/
theorem claim_C10_witness :
    calculateCorrelation [1, 1, 1] [1, 2, 3] = 0 ∧
    (correlationEndpoint [(1, 2)]).correlation = 0 := by
  have h := claim_C10 [1, 1, 1] [1, 2, 3] 1 3 [(1, 2)]
  exact ⟨h.2.2.1 h.2.2.2.1, (h.2.2.2.2 (by norm_num)).1⟩
